import Mathlib

/-! Streaming request client of langgraph-sdk-go: `HttpClient.Stream`

A shallow embedding of `src/http/http.go`, lines 179-298, and of the library
routines that decide what the frame parser emits.

* A Go `string` / `[]byte` is a list of bytes, each byte a natural number.
* The goroutine started by `Stream` is a function from the raw body to the
  ordered trace of its channel sends and deferred clean-up calls.
* `bufio.Scanner` (Go standard library) and `gjson.Get` (github.com/tidwall/gjson)
  are dependencies of the repository; they are embedded after the behaviour of
  the library routines, restricted to the way `Stream` calls them.
* `strings.ToUpper`, the transport call and the float formatting inside
  `gjson.Result.String` are parameters.
-/

set_option autoImplicit false

/-- Go `string`: a sequence of bytes. -/
abbrev GoString := List Nat

/-- Bytes of an ASCII literal. -/
def ascii (s : String) : GoString := s.data.map Char.toNat

/-- Go slice expression `json[s:e]`. -/
def substr (json : GoString) (s e : Nat) : GoString := (json.drop s).take (e - s)

namespace bufio

/-- Constant `bufio.MaxScanTokenSize = 64 * 1024`, the buffer limit of a scanner
made by `bufio.NewScanner` on which `Scanner.Buffer` is never called. -/
def MaxScanTokenSize : Nat := 64 * 1024

/-- Helper `dropCR` of `bufio.ScanLines`: drops one terminal carriage return. -/
def dropCR (data : GoString) : GoString :=
  if data.getLast? = some 13 then data.dropLast else data

/-- Tokens that successive `Scanner.Scan()` calls deliver with the split function
`bufio.ScanLines`, until `Scan` returns false. `data` is what the reader has still
to deliver before it reports end of input or a read error (the scanner hands the
split function its remaining bytes with `atEOF = true` in both cases); `cur` is
the unterminated text already in the buffer. A token ends at a newline or where
the data ends; when `maxTokenSize` bytes fill the buffer without a newline,
`Scan` sets `ErrTooLong` and returns false. -/
def scanTokens (maxTokenSize : Nat) : (data : GoString) → (cur : GoString) → List GoString
  | [], cur =>
    if cur = [] then []
    else if maxTokenSize ≤ cur.length then []
    else [dropCR cur]
  | b :: rest, cur =>
    if b = 10 then
      if maxTokenSize ≤ cur.length then []
      else dropCR cur :: scanTokens maxTokenSize rest []
    else scanTokens maxTokenSize rest (cur ++ [b])

/-- Lines read by `scanner := bufio.NewScanner(rawBody); for scanner.Scan() { scanner.Text() }`. -/
def scanLines (data : GoString) : List GoString := scanTokens MaxScanTokenSize data []

end bufio

namespace schema

/-- Struct `schema.StreamPart` as `Stream` builds it: three string fields. -/
structure StreamPart where
  Event : GoString
  Data : GoString
  MetaData : GoString
  deriving DecidableEq, Repr

end schema

namespace gjson

/-- Kind of a result, `gjson.Type`. The zero value is `Null`. -/
inductive Kind where
  | Null | False | Number | String | True | JSON
  deriving DecidableEq, Repr

/-- Struct `gjson.Result`, without the float `Num` and the `Index` fields. -/
structure Result where
  Typ : Kind
  Raw : GoString
  Str : GoString
  deriving DecidableEq, Repr

/-- Zero value of `Result`, returned when the path matches nothing. -/
def Result.zero : Result := ⟨Kind.Null, [], []⟩

/-- Length of the run of backslashes read downwards from index `j` while the index
stays above `lower`: `for j := i - 2; j > lower; j-- { if json[j] != '\\' { break }; n++ }`. -/
def backslashRun (json : GoString) (lower : Nat) : Nat → Nat
  | 0 => 0
  | j + 1 =>
    if lower < j + 1 ∧ json.getD (j + 1) 0 = 92 then backslashRun json lower j + 1 else 0

/-- Second loop of string scanning, entered once a backslash was met: index of
the closing quote, if there is one. `rest` is `json[i:]`. -/
def escapedLoop (json : GoString) : (rest : GoString) → (i : Nat) → Option Nat
  | [], _ => none
  | c :: rest, i =>
    if 92 < c then escapedLoop json rest (i + 1)
    else if c = 34 then
      if json.getD (i - 1) 0 = 92 ∧ backslashRun json 0 (i - 2) % 2 = 0 then
        escapedLoop json rest (i + 1)
      else some i
    else escapedLoop json rest (i + 1)

/-- First loop of string scanning: index of the closing quote and whether an
escape was met. `rest` is `json[i:]`. -/
def plainLoop (json : GoString) : (rest : GoString) → (i : Nat) → Option (Nat × Bool)
  | [], _ => none
  | c :: rest, i =>
    if 92 < c then plainLoop json rest (i + 1)
    else if c = 34 then some (i, false)
    else if c = 92 then (escapedLoop json rest (i + 1)).map (fun e => (e, true))
    else plainLoop json rest (i + 1)

/-- Function `parseString(json, i)`, `i` just after the opening quote:
`(i, val, vesc, ok)` with `val` the raw text, quotes included. -/
def parseString (json : GoString) (i : Nat) : Nat × GoString × Bool × Bool :=
  match plainLoop json (json.drop i) i with
  | some (e, vesc) => (e + 1, substr json (i - 1) (e + 1), vesc, true)
  | none => (json.length, json.drop (i - 1), false, false)

/-- Loop of `parseSquash`: skips a nested value, strings included, until the
bracket depth is back to zero. `str` holds the start `s2` of the string being
skipped. Result: the index where scanning stopped and whether the value closed. -/
def squashLoop (json : GoString) : (rest : GoString) → (i depth : Nat) → (str : Option Nat) → Nat × Bool
  | [], i, _, none => (i, false)
  | [], i, _, some _ => (i + 1, false)
  | c :: rest, i, depth, some s2 =>
    if 92 < c then squashLoop json rest (i + 1) depth (some s2)
    else if c = 34 then
      if json.getD (i - 1) 0 = 92 ∧ backslashRun json (s2 - 1) (i - 2) % 2 = 0 then
        squashLoop json rest (i + 1) depth (some s2)
      else squashLoop json rest (i + 1) depth none
    else squashLoop json rest (i + 1) depth (some s2)
  | c :: rest, i, depth, none =>
    if c = 34 then squashLoop json rest (i + 1) depth (some (i + 1))
    else if c = 123 ∨ c = 91 ∨ c = 40 then squashLoop json rest (i + 1) (depth + 1) none
    else if c = 125 ∨ c = 93 ∨ c = 41 then
      if depth - 1 = 0 then (i + 1, true) else squashLoop json rest (i + 1) (depth - 1) none
    else squashLoop json rest (i + 1) depth none

/-- Function `parseSquash(json, i)`, `json[i]` being the opening bracket: `(i, val)`. -/
def parseSquash (json : GoString) (i : Nat) : Nat × GoString :=
  match squashLoop json (json.drop (i + 1)) (i + 1) 1 none with
  | (e, true) => (e, substr json i e)
  | (e, false) => (e, json.drop i)

/-- Loop of `parseLiteral`: stops at the first byte outside `a`..`z`. -/
def literalLoop : (rest : GoString) → (i : Nat) → Nat
  | [], i => i
  | c :: rest, i => if c < 97 ∨ 122 < c then i else literalLoop rest (i + 1)

/-- Function `parseLiteral(json, i)`: `(i, val)`. -/
def parseLiteral (json : GoString) (i : Nat) : Nat × GoString :=
  let e := literalLoop (json.drop (i + 1)) (i + 1)
  (e, substr json i e)

/-- Loop of `parseNumber`: stops at a byte `<= ' '`, a comma, `]` or `}`. -/
def numberLoop : (rest : GoString) → (i : Nat) → Nat
  | [], i => i
  | c :: rest, i => if c ≤ 32 ∨ c = 44 ∨ c = 93 ∨ c = 125 then i else numberLoop rest (i + 1)

/-- Function `parseNumber(json, i)`: `(i, val)`. -/
def parseNumber (json : GoString) (i : Nat) : Nat × GoString :=
  let e := numberLoop (json.drop (i + 1)) (i + 1)
  (e, substr json i e)

/-- Value of one hexadecimal digit. -/
def hexDigit (c : Nat) : Option Nat :=
  if 48 ≤ c ∧ c ≤ 57 then some (c - 48)
  else if 97 ≤ c ∧ c ≤ 102 then some (c - 87)
  else if 65 ≤ c ∧ c ≤ 70 then some (c - 55)
  else none

/-- Function `runeit`: `strconv.ParseUint(json[:4], 16, 64)`, zero when the four
bytes are not all hexadecimal digits. -/
def runeit (json : GoString) : Nat :=
  match json.take 4 with
  | [a, b, c, d] =>
    match hexDigit a, hexDigit b, hexDigit c, hexDigit d with
    | some a, some b, some c, some d => ((a * 16 + b) * 16 + c) * 16 + d
    | _, _, _, _ => 0
  | _ => 0

/-- Function `utf16.IsSurrogate`. -/
def isSurrogate (r : Nat) : Bool := 0xd800 ≤ r && r < 0xe000

/-- Function `utf16.DecodeRune`. -/
def decodeRune (r1 r2 : Nat) : Nat :=
  if 0xd800 ≤ r1 ∧ r1 < 0xdc00 ∧ 0xdc00 ≤ r2 ∧ r2 < 0xe000 then
    (r1 - 0xd800) * 1024 + (r2 - 0xdc00) + 0x10000
  else 0xfffd

/-- Function `utf8.EncodeRune` (the bytes appended). -/
def encodeRune (r : Nat) : GoString :=
  if r < 0x80 then [r]
  else if r < 0x800 then [0xc0 + r / 64, 0x80 + r % 64]
  else if isSurrogate r ∨ 0x10ffff < r then [0xef, 0xbf, 0xbd]
  else if r < 0x10000 then [0xe0 + r / 4096, 0x80 + r / 64 % 64, 0x80 + r % 64]
  else [0xf0 + r / 262144, 0x80 + r / 4096 % 64, 0x80 + r / 64 % 64, 0x80 + r % 64]

/-- Function `unescape(json)`: decodes the escapes of a string body; stops at
a control byte or at an escape it does not know. -/
def unescape : GoString → GoString
  | [] => []
  | c :: rest =>
    if c < 32 then []
    else if c = 92 then
      match rest with
      | [] => []
      | e :: rest2 =>
        if e = 92 then 92 :: unescape rest2
        else if e = 47 then 47 :: unescape rest2
        else if e = 98 then 8 :: unescape rest2
        else if e = 102 then 12 :: unescape rest2
        else if e = 110 then 10 :: unescape rest2
        else if e = 114 then 13 :: unescape rest2
        else if e = 116 then 9 :: unescape rest2
        else if e = 34 then 34 :: unescape rest2
        else if e = 117 then
          if rest2.length < 4 then []
          else
            let r := runeit rest2
            let rest3 := rest2.drop 4
            if isSurrogate r ∧ 6 ≤ rest3.length ∧ rest3.getD 0 0 = 92 ∧ rest3.getD 1 0 = 117 then
              encodeRune (decodeRune r (runeit (rest3.drop 2))) ++ unescape (rest3.drop 6)
            else encodeRune r ++ unescape rest3
        else []
    else c :: unescape rest
termination_by json => json.length
decreasing_by all_goals (simp only [List.length_cons, List.length_drop]; omega)

/-- Where the value loop of `parseObject` stops. -/
inductive ValueStart where
  | str (i : Nat)
  | squash (i : Nat)
  | lit (i : Nat)
  | num (i : Nat)
  | eof
  deriving DecidableEq, Repr

/-- Key loop of `parseObject`: index of the next `"`, or nothing when `}` comes
first or the text is over. -/
def keyStart : (rest : GoString) → (i : Nat) → Option Nat
  | [], _ => none
  | c :: rest, i =>
    if c = 34 then some i
    else if c = 125 then none
    else keyStart rest (i + 1)

/-- Value loop of `parseObject`: the `switch` on the first byte of a value, which
is `"`, `{`, `[`, `n`, `t`, `f`, or a number start `+ - 0..9 i I N`; every
other byte is passed over. -/
def valueStart : (rest : GoString) → (i : Nat) → ValueStart
  | [], _ => ValueStart.eof
  | c :: rest, i =>
    if c = 34 then ValueStart.str i
    else if c = 123 ∨ c = 91 then ValueStart.squash i
    else if c = 110 then
      if rest ≠ [] ∧ rest.getD 0 0 ≠ 117 then ValueStart.num i else ValueStart.lit i
    else if c = 116 ∨ c = 102 then ValueStart.lit i
    else if c = 43 ∨ c = 45 ∨ (48 ≤ c ∧ c ≤ 57) ∨ c = 105 ∨ c = 73 ∨ c = 78 then
      ValueStart.num i
    else valueStart rest (i + 1)

/-- Function `parseObject(c, i, path)` for a path that is one plain key `part`
(no `.`, `|`, `*`, `?`, `#`, `\`), as `event`, `data` and `metadata` are: the
value `c.value` it leaves. Every iteration of the outer loop reads at least the
opening quote of a key; `fuel` provides one unit for each byte of the text. -/
def parseObject (json part : GoString) : (fuel : GoString) → (i : Nat) → Result
  | [], _ => Result.zero
  | _ :: fuel, i =>
    match keyStart (json.drop i) i with
    | none => Result.zero
    | some q =>
      match plainLoop json (json.drop (q + 1)) (q + 1) with
      | none => Result.zero
      | some (e, kesc) =>
        let key := substr json (q + 1) e
        let hit : Bool := if kesc then part = unescape key else part = key
        match valueStart (json.drop (e + 1)) (e + 1) with
        | ValueStart.eof => Result.zero
        | ValueStart.str v =>
          match parseString json (v + 1) with
          | (_, _, _, false) => Result.zero
          | (i2, val, vesc, true) =>
            if hit then
              ⟨Kind.String, val,
                if vesc then unescape (substr val 1 (val.length - 1))
                else substr val 1 (val.length - 1)⟩
            else parseObject json part fuel i2
        | ValueStart.squash v =>
          if hit then ⟨Kind.JSON, (parseSquash json v).2, []⟩
          else parseObject json part fuel (parseSquash json v).1
        | ValueStart.lit v =>
          if hit then
            ⟨if json.getD v 0 = 116 then Kind.True
              else if json.getD v 0 = 102 then Kind.False else Kind.Null,
              (parseLiteral json v).2, []⟩
          else parseObject json part fuel (parseLiteral json v).1
        | ValueStart.num v =>
          if hit then ⟨Kind.Number, (parseNumber json v).2, []⟩
          else parseObject json part fuel (parseNumber json v).1

/-- Top loop of `Get`: the first `{` or `[` of the text. -/
def firstBracket : (rest : GoString) → (i : Nat) → Option (Nat × Nat)
  | [], _ => none
  | c :: rest, i => if c = 123 ∨ c = 91 then some (c, i) else firstBracket rest (i + 1)

/-- Function `gjson.Get(json, path)` for a path that is one plain key that is
not a number. On a top-level array `parseArray` matches elements by index
only, so such a key matches nothing there. -/
def Get (json path : GoString) : Result :=
  match firstBracket json 0 with
  | some (123, i) => parseObject json path json (i + 1)
  | _ => Result.zero

/-- Method `Result.String()`. `formatFloat raw` stands for
`strconv.FormatFloat(t.Num, 'f', -1, 64)` with `t.Num` parsed from `raw`; it is
used for a number that is not written as plain decimal digits. -/
def Result.String (formatFloat : GoString → GoString) (t : Result) : GoString :=
  match t.Typ with
  | Kind.Null => []
  | Kind.False => ascii "false"
  | Kind.True => ascii "true"
  | Kind.String => t.Str
  | Kind.JSON => t.Raw
  | Kind.Number =>
    if t.Raw = [] then formatFloat t.Raw
    else if ((if t.Raw.getD 0 0 = 45 then t.Raw.drop 1 else t.Raw).all
        (fun c => decide (48 ≤ c ∧ c ≤ 57))) then t.Raw
    else formatFloat t.Raw

end gjson

namespace http

open schema

/-- Go `error` values that `Stream` handles: the error of the transport call and
the errors made by `fmt.Errorf`, each with its message. -/
inductive GoError where
  | transport (msg : GoString)
  | errorf (msg : GoString)
  deriving DecidableEq, Repr

/-- Method `Error()`. -/
def GoError.Error : GoError → GoString
  | GoError.transport msg => msg
  | GoError.errorf msg => msg

/-- The `io.ReadCloser` returned by `resp.RawBody()`: the bytes it delivers, and
whether the reads end with an error (a broken connection, a cancelled context)
instead of `io.EOF`. -/
structure RawBody where
  data : GoString
  readError : Bool
  deriving DecidableEq, Repr

/-- What `Stream` reads of a `*resty.Response`: `StatusCode()`,
`Header().Get("Content-Type")` (empty when the header is missing) and `RawBody()`. -/
structure Response where
  StatusCode : Int
  ContentType : GoString
  Body : RawBody
  deriving DecidableEq, Repr

/-- A `*resty.Request` as far as `Stream` sets it up. `Header` holds the
request-level headers, written with `Header.Set` only. -/
structure Request where
  Header : List (GoString × GoString)
  Body : Option GoString
  QueryParam : List (GoString × GoString)
  DoNotParseResponse : Bool
  deriving DecidableEq, Repr

/-- Method `http.Header.Set` on keys already in canonical form: replaces the
value of the key or adds the key. -/
def headerSet (key value : GoString) : List (GoString × GoString) → List (GoString × GoString)
  | [] => [(key, value)]
  | (k, v) :: rest => if k = key then (key, value) :: rest else (k, v) :: headerSet key value rest

/-- The requests allocated so far; a `*resty.Request` is an index into it. -/
abbrev Heap := List Request

/-- Method `Client.R()`: allocates a fresh request with empty headers. -/
def R (heap : Heap) : Heap × Nat :=
  (heap ++ [{ Header := [], Body := none, QueryParam := [], DoNotParseResponse := false }], heap.length)

/-- Writes through a request pointer. -/
def update (heap : Heap) (r : Nat) (f : Request → Request) : Heap :=
  match heap, r with
  | [], _ => []
  | x :: rest, 0 => f x :: rest
  | x :: rest, r + 1 => x :: update rest r f

/-- Method `Request.SetHeader`. -/
def SetHeader (heap : Heap) (r : Nat) (key value : GoString) : Heap :=
  update heap r (fun q => { q with Header := headerSet key value q.Header })

/-- Method `Request.SetBody`. -/
def SetBody (heap : Heap) (r : Nat) (body : GoString) : Heap :=
  update heap r (fun q => { q with Body := some body })

/-- Method `Request.SetDoNotParseResponse`. -/
def SetDoNotParseResponse (heap : Heap) (r : Nat) (b : Bool) : Heap :=
  update heap r (fun q => { q with DoNotParseResponse := b })

/-- Method `Request.SetQueryParamsFromValues`: adds every value of every key. -/
def SetQueryParamsFromValues (heap : Heap) (r : Nat) (params : List (GoString × List GoString)) : Heap :=
  update heap r (fun q =>
    { q with QueryParam := q.QueryParam ++ params.flatMap (fun kv => kv.2.map (fun v => (kv.1, v))) })

/-- Lines 181-200 of `Stream`: the request `req` is allocated and set up; every
entry of `headers` is set on a request of its own, allocated for it by
`c.client.R()` inside the loop. Returns the heap and the pointer `req`. The
context given to `SetContext` acts through the transport call only. -/
def buildRequest (jsonData : Option GoString) (params : Option (List (GoString × List GoString)))
    (headers : Option (List (GoString × GoString))) : Heap × Nat :=
  let req := (R []).2
  let heap := SetDoNotParseResponse (R []).1 req true
  let heap := SetHeader heap req (ascii "Accept") (ascii "text/event-stream")
  let heap := SetHeader heap req (ascii "Cache-Control") (ascii "no-store")
  let heap :=
    match headers with
    | none => heap
    | some hs => hs.foldl (fun heap kv => SetHeader (R heap).1 (R heap).2 kv.1 kv.2) heap
  let heap :=
    match jsonData with
    | none => heap
    | some body => SetBody (SetHeader heap req (ascii "Content-Type") (ascii "application/json")) req body
  let heap :=
    match params with
    | none => heap
    | some ps => SetQueryParamsFromValues heap req ps
  (heap, req)

/-- The request that `req.Get(path)`, `req.Post(path)`, ... executes: the one
`req` points to when the set-up is over. -/
def executedRequest (jsonData : Option GoString) (params : Option (List (GoString × List GoString)))
    (headers : Option (List (GoString × GoString))) : Request :=
  (buildRequest jsonData params headers).1.getD (buildRequest jsonData params headers).2
    { Header := [], Body := none, QueryParam := [], DoNotParseResponse := false }

/-- Lines 277-279: the three fields read from a non-blank line. -/
def extractFields (formatFloat : GoString → GoString) (line : GoString) : StreamPart :=
  { Event := (gjson.Get line (ascii "event")).String formatFloat
    Data := (gjson.Get line (ascii "data")).Raw
    MetaData := (gjson.Get line (ascii "metadata")).Raw }

/-- Lines 258-294, the loop `for scanner.Scan()` over the lines the scanner
delivers, with the pending `event, data, metadata`: the values sent on
`streamPartCh`, in order. -/
def frameLoop (formatFloat : GoString → GoString) :
    List GoString → (event data metadata : GoString) → List StreamPart
  | [], _, _, _ => []
  | line :: rest, event, data, metadata =>
    if line = [] then
      if event ≠ [] ∨ data ≠ [] then
        ⟨event, data, metadata⟩ :: frameLoop formatFloat rest [] [] []
      else frameLoop formatFloat rest event data metadata
    else
      let part := extractFields formatFloat line
      if part.Event ≠ [] ∨ part.Data ≠ [] ∨ part.MetaData ≠ [] then
        part :: frameLoop formatFloat rest [] [] []
      else frameLoop formatFloat rest [] [] []

/-- The frame parser on a sequence of lines: the loop entered with
`var event, data, metadata string`. -/
def frameParser (formatFloat : GoString → GoString) (lines : List GoString) : List StreamPart :=
  frameLoop formatFloat lines [] [] []

/-- What the loop emits for one line read with nothing pending. -/
def lineParts (formatFloat : GoString → GoString) (line : GoString) : List StreamPart :=
  frameLoop formatFloat [line] [] [] []

/-- What the goroutine does that another party can observe. -/
inductive Action where
  | sendPart (p : StreamPart)
  | sendErr (e : GoError)
  | closeRawBody
  | closeStreamPartCh
  | closeErrCh
  deriving DecidableEq, Repr

/-- The `defer` statements of the goroutine, lines 252-254, in program order. -/
def deferred : List Action := [Action.closeRawBody, Action.closeStreamPartCh, Action.closeErrCh]

/-- Lines 251-295, the goroutine from start to return: the sends of the loop,
then the deferred calls, last registered first. It returns once the scanner
stops, provided every send is received. -/
def goroutine (formatFloat : GoString → GoString) (rawBody : RawBody) : List Action :=
  (frameParser formatFloat (bufio.scanLines rawBody.data)).map Action.sendPart ++ deferred.reverse

/-- A channel as its receiver sees it: the values sent and not yet received, and
whether it was closed. -/
structure Chan (α : Type) where
  queue : List α
  closed : Bool

/-- The error channel after one more action of the goroutine. -/
def errChStep (ch : Chan GoError) : Action → Chan GoError
  | Action.sendErr e => { ch with queue := ch.queue ++ [e] }
  | Action.closeErrCh => { ch with closed := true }
  | _ => ch

/-- Receive `err, ok := <-errCh` on a channel no one sends on any more: the
oldest value, or the nil error once the channel is closed and empty. -/
def recvErr (ch : Chan GoError) : Option GoError := ch.queue.head?

/-- What `Stream` does before it returns, in order. -/
inductive Effect where
  | execute (verb path : GoString) (req : Request)
  | onResponse
  | readAll
  | closeRawBody
  | makeChan (capacity : Nat)
  | go (rawBody : RawBody)
  deriving DecidableEq, Repr

/-- The three results of `Stream` (a nil channel or error is `none`; a channel is
given by its capacity) and the effects of the call. -/
structure Outcome where
  streamPartCh : Option Nat
  errCh : Option Nat
  err : Option GoError
  effects : List Effect
  deriving DecidableEq, Repr

/-- Function `fmt.Sprintf("%d", n)` for an `int`. -/
def formatInt (n : Int) : GoString := ascii (toString n)

/-- Function `strings.Contains(s, substr)`. -/
def stringsContains (s sub : GoString) : Bool := s.tails.any (fun t => sub.isPrefixOf t)

/-- Modelled from the spec: the helper `containsTextEventStream` called at line
242 is defined outside the files at hand; section 4.1 says the header must
contain `text/event-stream`. -/
def containsTextEventStream (contentType : GoString) : Bool :=
  stringsContains contentType (ascii "text/event-stream")

/-- The verbs of the `switch` at line 206. -/
def verbs : List GoString :=
  [ascii "GET", ascii "POST", ascii "PUT", ascii "PATCH", ascii "DELETE"]

/-- Method `HttpClient.Stream`, lines 180-298. `toUpper` is `strings.ToUpper`;
`transport verb path req` is the result `(resp, err)` of `req.Get(path)`,
`req.Post(path)`, ... under the context `ctx`; `onResponse` tells whether the
callback is non-nil. -/
def Stream (toUpper : GoString → GoString)
    (transport : GoString → GoString → Request → Except GoError Response)
    (path method : GoString) (jsonData : Option GoString)
    (params : Option (List (GoString × List GoString)))
    (headers : Option (List (GoString × GoString))) (onResponse : Bool) : Outcome :=
  let req := executedRequest jsonData params headers
  if toUpper method ∈ verbs then
    let called := Effect.execute (toUpper method) path req ::
      (if onResponse then [Effect.onResponse] else [])
    match transport (toUpper method) path req with
    | Except.error err => ⟨none, none, some err, called⟩
    | Except.ok resp =>
      if 400 ≤ resp.StatusCode then
        ⟨none, none,
          some (GoError.errorf (ascii "HTTP error: " ++ formatInt resp.StatusCode ++ ascii " - "
            ++ resp.Body.data)),
          called ++ [Effect.readAll, Effect.closeRawBody]⟩
      else if resp.ContentType = [] ∨ ¬ containsTextEventStream resp.ContentType then
        ⟨none, none,
          some (GoError.errorf
            (ascii "expected Content-Type to contain 'text/event-stream', got " ++ resp.ContentType)),
          called ++ [Effect.closeRawBody]⟩
      else
        ⟨some 0, some 1, none,
          called ++ [Effect.makeChan 0, Effect.makeChan 1, Effect.go resp.Body]⟩
  else
    ⟨none, none, some (GoError.errorf (ascii "unsupported HTTP method: " ++ method)), []⟩

/-- The byte stream of a sequence of lines, each ended by a newline. -/
def byteStream (lines : List GoString) : GoString := lines.flatMap (fun l => l ++ [10])

/-- The parts the goroutine sends, in order, when the raw body delivers `data`:
the loop of lines 260-294 run on the lines of `bufio.NewScanner(rawBody)`. -/
def sentParts (formatFloat : GoString → GoString) (data : GoString) : List StreamPart :=
  frameParser formatFloat (bufio.scanLines data)

/-! ## Concrete inputs -/

/-- The line `{"event":"a","data":"1"}`. -/
def lineA : GoString := ascii "\x7b\"event\":\"a\",\"data\":\"1\"\x7d"

/-- The line `{"event":"b","data":"2"}`. -/
def lineB : GoString := ascii "\x7b\"event\":\"b\",\"data\":\"2\"\x7d"

/-- The byte stream of `lineA`, a blank line and `lineB`, the last line left
unterminated. -/
def twoEvents : GoString := lineA ++ [10] ++ [10] ++ lineB

/-- A line of 65549 bytes: the record `{"event":"a"}` followed by 65536 spaces. -/
def longLine : GoString := ascii "\x7b\"event\":\"a\"\x7d" ++ List.replicate 65536 32

end http

/-! ## `parseObject` never runs out of fuel -/

namespace gjson

theorem keyStart_ge (rest : GoString) (i q : Nat) (h : keyStart rest i = some q) : i ≤ q := by
  induction rest generalizing i with
  | nil => simp [keyStart] at h
  | cons c rest ih =>
    unfold keyStart at h
    split_ifs at h with h1 h2
    · simp at h; omega
    · have := ih _ h; omega

theorem escapedLoop_ge (json rest : GoString) (i e : Nat) (h : escapedLoop json rest i = some e) :
    i ≤ e := by
  induction rest generalizing i with
  | nil => simp [escapedLoop] at h
  | cons c rest ih =>
    unfold escapedLoop at h
    split_ifs at h with h1 h2 h3
    · have := ih _ h; omega
    · have := ih _ h; omega
    · simp at h; omega
    · have := ih _ h; omega

theorem plainLoop_ge (json rest : GoString) (i e : Nat) (b : Bool)
    (h : plainLoop json rest i = some (e, b)) : i ≤ e := by
  induction rest generalizing i with
  | nil => simp [plainLoop] at h
  | cons c rest ih =>
    unfold plainLoop at h
    split_ifs at h with h1 h2 h3
    · have := ih _ h; omega
    · simp at h; omega
    · cases he : escapedLoop json rest (i + 1) with
      | none => simp [he] at h
      | some e2 =>
        simp [he] at h
        have := escapedLoop_ge _ _ _ _ he
        omega
    · have := ih _ h; omega

theorem squashLoop_ge (json rest : GoString) (i depth : Nat) (str : Option Nat) :
    i ≤ (squashLoop json rest i depth str).1 := by
  induction rest generalizing i depth str with
  | nil => cases str <;> simp [squashLoop]
  | cons c rest ih =>
    cases str with
    | none =>
      unfold squashLoop
      split_ifs
      all_goals first
        | exact Nat.le_succ _
        | exact Nat.le_trans (Nat.le_succ _) (ih _ _ _)
    | some s2 =>
      unfold squashLoop
      split_ifs
      all_goals exact Nat.le_trans (Nat.le_succ _) (ih _ _ _)

theorem literalLoop_ge (rest : GoString) (i : Nat) : i ≤ literalLoop rest i := by
  induction rest generalizing i with
  | nil => simp [literalLoop]
  | cons c rest ih =>
    unfold literalLoop
    split_ifs
    · exact Nat.le_refl _
    · exact Nat.le_trans (Nat.le_succ _) (ih _)

theorem numberLoop_ge (rest : GoString) (i : Nat) : i ≤ numberLoop rest i := by
  induction rest generalizing i with
  | nil => simp [numberLoop]
  | cons c rest ih =>
    unfold numberLoop
    split_ifs
    · exact Nat.le_refl _
    · exact Nat.le_trans (Nat.le_succ _) (ih _)

theorem valueStart_ge (rest : GoString) (i : Nat) :
    (∀ v, valueStart rest i = ValueStart.str v → i ≤ v) ∧
    (∀ v, valueStart rest i = ValueStart.squash v → i ≤ v) ∧
    (∀ v, valueStart rest i = ValueStart.lit v → i ≤ v) ∧
    (∀ v, valueStart rest i = ValueStart.num v → i ≤ v) := by
  induction rest generalizing i with
  | nil => simp [valueStart]
  | cons c rest ih =>
    unfold valueStart
    split_ifs
    all_goals first
      | (refine ⟨?_, ?_, ?_, ?_⟩ <;> intro v h <;> simp at h <;> omega)
      | (obtain ⟨h1, h2, h3, h4⟩ := ih (i + 1)
         exact ⟨fun v h => Nat.le_of_succ_le (h1 v h), fun v h => Nat.le_of_succ_le (h2 v h),
           fun v h => Nat.le_of_succ_le (h3 v h), fun v h => Nat.le_of_succ_le (h4 v h)⟩)

theorem parseString_ge (json : GoString) (i i2 : Nat) (val : GoString) (vesc : Bool)
    (h : parseString json i = (i2, val, vesc, true)) : i < i2 := by
  unfold parseString at h
  cases hp : plainLoop json (json.drop i) i with
  | none => simp [hp] at h
  | some r =>
    obtain ⟨e, b⟩ := r
    simp [hp] at h
    have := plainLoop_ge _ _ _ _ _ hp
    omega

theorem parseSquash_ge (json : GoString) (i : Nat) : i < (parseSquash json i).1 := by
  unfold parseSquash
  have := squashLoop_ge json (json.drop (i + 1)) (i + 1) 1 none
  rcases hs : squashLoop json (json.drop (i + 1)) (i + 1) 1 none with ⟨e, b⟩
  rw [hs] at this
  cases b <;> simp at this ⊢ <;> omega

theorem parseLiteral_ge (json : GoString) (i : Nat) : i < (parseLiteral json i).1 := by
  have := literalLoop_ge (json.drop (i + 1)) (i + 1)
  simp only [parseLiteral]
  omega

theorem parseNumber_ge (json : GoString) (i : Nat) : i < (parseNumber json i).1 := by
  have := numberLoop_ge (json.drop (i + 1)) (i + 1)
  simp only [parseNumber]
  omega

/-- The result of `parseObject` does not depend on the fuel, once there is a
unit of it for every byte from index `i` on: the loop never stops for want of
fuel. -/
theorem parseObject_fuel (json part : GoString) (f1 : GoString) :
    ∀ (f2 : GoString) (i : Nat), json.length ≤ i + f1.length → json.length ≤ i + f2.length →
      parseObject json part f1 i = parseObject json part f2 i := by
  have hend : ∀ (f : GoString) (i : Nat), json.length ≤ i → parseObject json part f i = Result.zero := by
    intro f i h
    cases f with
    | nil => rfl
    | cons a f => simp [parseObject, List.drop_eq_nil_of_le h, keyStart]
  induction f1 with
  | nil =>
    intro f2 i h1 _
    rw [hend [] i (by simpa using h1), hend f2 i (by simpa using h1)]
  | cons a f1 ih =>
    intro f2 i h1 h2
    cases f2 with
    | nil => rw [hend _ i (by simpa using h2), hend [] i (by simpa using h2)]
    | cons b f2 =>
      simp only [List.length_cons] at h1 h2
      unfold parseObject
      cases hk : keyStart (json.drop i) i with
      | none => rfl
      | some q =>
        have hq := keyStart_ge _ _ _ hk
        dsimp only
        cases hp : plainLoop json (json.drop (q + 1)) (q + 1) with
        | none => rfl
        | some r =>
          obtain ⟨e, kesc⟩ := r
          have he := plainLoop_ge _ _ _ _ _ hp
          have hv := valueStart_ge (json.drop (e + 1)) (e + 1)
          dsimp only
          cases hvs : valueStart (json.drop (e + 1)) (e + 1) with
          | eof => rfl
          | str v =>
            have hv1 := hv.1 v hvs
            dsimp only
            rcases hps : parseString json (v + 1) with ⟨i2, val, vesc, ok⟩
            cases ok with
            | false => rfl
            | true =>
              have h3 := parseString_ge _ _ _ _ _ hps
              dsimp only
              rw [ih f2 i2 (by omega) (by omega)]
          | squash v =>
            have hv1 := hv.2.1 v hvs
            have h3 := parseSquash_ge json v
            dsimp only
            rw [ih f2 _ (by omega) (by omega)]
          | lit v =>
            have hv1 := hv.2.2.1 v hvs
            have h3 := parseLiteral_ge json v
            dsimp only
            rw [ih f2 _ (by omega) (by omega)]
          | num v =>
            have hv1 := hv.2.2.2 v hvs
            have h3 := parseNumber_ge json v
            dsimp only
            rw [ih f2 _ (by omega) (by omega)]

/-- More fuel than `Get` provides changes nothing. -/
theorem Get_fuel (json path extra : GoString) (i : Nat) :
    parseObject json path (json ++ extra) (i + 1) = parseObject json path json (i + 1) :=
  parseObject_fuel json path _ _ _ (by simp; omega) (by omega)

end gjson

namespace http

open schema

/-! ## The frame parser, line by line -/

/-- With no pending event and no pending data, the loop emits for each line what
that line emits on its own, whatever the pending metadata. -/
theorem frameLoop_flatMap (ff : GoString → GoString) (lines : List GoString) (m : GoString) :
    frameLoop ff lines [] [] m = lines.flatMap (lineParts ff) := by
  induction lines generalizing m with
  | nil => simp [frameLoop]
  | cons l rest ih =>
    by_cases hl : l = []
    · subst hl
      simp [frameLoop, lineParts, ih]
    · by_cases hp : (extractFields ff l).Event ≠ [] ∨ (extractFields ff l).Data ≠ [] ∨
          (extractFields ff l).MetaData ≠ []
      · simp only [frameLoop, lineParts, hl, if_false, hp, if_true, List.flatMap_cons, ih,
          List.singleton_append, List.cons_append, List.nil_append]
      · simp only [frameLoop, lineParts, hl, if_false, hp, List.flatMap_cons, ih, List.nil_append]

/-- Every part the loop sends has a non-empty field, whatever is pending. -/
theorem frameLoop_nonEmpty (ff : GoString → GoString) (lines : List GoString)
    (e d m : GoString) (p : StreamPart) (hp : p ∈ frameLoop ff lines e d m) :
    p.Event ≠ [] ∨ p.Data ≠ [] ∨ p.MetaData ≠ [] := by
  induction lines generalizing e d m with
  | nil => simp [frameLoop] at hp
  | cons l rest ih =>
    unfold frameLoop at hp
    dsimp only at hp
    split_ifs at hp with h1 h2 h3
    · rcases List.mem_cons.mp hp with h | h
      · subst h
        rcases h2 with h2 | h2
        · exact Or.inl h2
        · exact Or.inr (Or.inl h2)
      · exact ih _ _ _ h
    · exact ih _ _ _ hp
    · rcases List.mem_cons.mp hp with h | h
      · subst h
        exact h3
      · exact ih _ _ _ h
    · exact ih _ _ _ hp

/-! ## The scanner on newline-terminated lines -/

theorem scanTokens_line (max : Nat) (l rest cur : GoString) (hl : 10 ∉ l) :
    bufio.scanTokens max (l ++ 10 :: rest) cur =
      if max ≤ (cur ++ l).length then [] else bufio.dropCR (cur ++ l) :: bufio.scanTokens max rest [] := by
  induction l generalizing cur with
  | nil => simp [bufio.scanTokens]
  | cons b l ih =>
    have hb : b ≠ 10 := fun h => hl (by simp [h])
    have hl2 : 10 ∉ l := fun h => hl (by simp [h])
    have step : bufio.scanTokens max ((b :: l) ++ 10 :: rest) cur =
        bufio.scanTokens max (l ++ 10 :: rest) (cur ++ [b]) := by
      simp only [List.cons_append, bufio.scanTokens, hb, if_false]
      rfl
    rw [step, ih _ hl2]
    simp

theorem scanLines_lines (lines : List GoString)
    (h : ∀ l ∈ lines, 10 ∉ l ∧ l.length < bufio.MaxScanTokenSize) :
    bufio.scanLines (lines.flatMap (fun l => l ++ [10])) = lines.map bufio.dropCR := by
  unfold bufio.scanLines
  induction lines with
  | nil => simp [bufio.scanTokens]
  | cons l rest ih =>
    have h1 := h l (by simp)
    have h2 : ∀ l ∈ rest, 10 ∉ l ∧ l.length < bufio.MaxScanTokenSize :=
      fun x hx => h x (by simp [hx])
    simp only [List.flatMap_cons, List.append_assoc, List.singleton_append, List.map_cons]
    rw [scanTokens_line _ _ _ _ h1.1, ih h2]
    simp [Nat.not_le.mpr h1.2]

theorem frameParser_all_emit (ff : GoString → GoString) (toks : List GoString)
    (h : ∀ t ∈ toks, t ≠ [] ∧ ((extractFields ff t).Event ≠ [] ∨ (extractFields ff t).Data ≠ [] ∨
      (extractFields ff t).MetaData ≠ [])) :
    frameParser ff toks = toks.map (extractFields ff) := by
  unfold frameParser
  induction toks with
  | nil => simp [frameLoop]
  | cons t rest ih =>
    have h1 := h t (by simp)
    have h2 : ∀ t ∈ rest, t ≠ [] ∧ ((extractFields ff t).Event ≠ [] ∨ (extractFields ff t).Data ≠ [] ∨
      (extractFields ff t).MetaData ≠ []) := fun x hx => h x (by simp [hx])
    simp only [frameLoop, h1.1, if_false, h1.2, if_true, List.map_cons, ih h2]

/-! ## The fields of some lines -/

/-- A value that starts with `i` is read as a number, up to the next comma or
closing bracket: `inf` is the raw text of `data`, and a key after such a value
is still found; a string that follows such a value is its own key's value. -/
theorem extractFields_number_start :
    (∀ ff : GoString → GoString,
        (extractFields ff (ascii "\x7b\"event\":\"x\",\"data\":inf\x7d")).Data = ascii "inf") ∧
      (∀ ff : GoString → GoString,
        (extractFields ff (ascii "\x7b\"a\":i,\"event\":\"q\"\x7d")).Event = ascii "q") ∧
      (∀ ff : GoString → GoString,
        extractFields ff (ascii "\x7b\"a\":i,\"x\":\"event\",\"y\":\"z\"\x7d") =
          ⟨[], [], []⟩) :=
  ⟨fun _ => rfl, fun _ => rfl, fun _ => rfl⟩

/-! ## Claims on the frame parser -/

/-- C1, as stated, fails. For the stream of `{"event":"a","data":"1"}`, a blank
line and `{"event":"b","data":"2"}`, with or without a final newline, the parts
sent are not the two parts whose `Data` is the one-character string `1`, resp. `2`. -/
theorem C1_counterexample :
    ¬ ∃ ff : GoString → GoString,
      frameParser ff (bufio.scanLines twoEvents) =
          [⟨ascii "a", ascii "1", []⟩, ⟨ascii "b", ascii "2", []⟩] ∨
        frameParser ff (bufio.scanLines (twoEvents ++ [10])) =
          [⟨ascii "a", ascii "1", []⟩, ⟨ascii "b", ascii "2", []⟩] := by
  rintro ⟨ff, h | h⟩
  · have e : frameParser ff (bufio.scanLines twoEvents) =
        [⟨ascii "a", [34, 49, 34], []⟩, ⟨ascii "b", [34, 50, 34], []⟩] := rfl
    rw [e] at h
    exact absurd h (by decide)
  · have e : frameParser ff (bufio.scanLines (twoEvents ++ [10])) =
        [⟨ascii "a", [34, 49, 34], []⟩, ⟨ascii "b", [34, 50, 34], []⟩] := rfl
    rw [e] at h
    exact absurd h (by decide)

/-- C1, amended. For the stream of `{"event":"a","data":"1"}`, a blank line and
`{"event":"b","data":"2"}`, with or without a final newline and however the
reads end, the goroutine sends exactly two parts, in this order: `Event` is `a`,
resp. `b`, `MetaData` is empty, and `Data` is the raw JSON text of the value, the
three bytes `"1"`, resp. `"2"`, quotes included; then it runs its deferred calls. -/
theorem C1_two_events_raw_data (ff : GoString → GoString) (readError : Bool) :
    goroutine ff ⟨twoEvents, readError⟩ =
        [Action.sendPart ⟨ascii "a", [34, 49, 34], []⟩,
          Action.sendPart ⟨ascii "b", [34, 50, 34], []⟩,
          Action.closeErrCh, Action.closeStreamPartCh, Action.closeRawBody] ∧
      goroutine ff ⟨twoEvents ++ [10], readError⟩ =
        [Action.sendPart ⟨ascii "a", [34, 49, 34], []⟩,
          Action.sendPart ⟨ascii "b", [34, 50, 34], []⟩,
          Action.closeErrCh, Action.closeStreamPartCh, Action.closeRawBody] ∧
      ascii "\"1\"" = [34, 49, 34] ∧ ascii "\"2\"" = [34, 50, 34] :=
  ⟨rfl, rfl, rfl, rfl⟩

/-- C4, as stated, fails on a long line. The line `longLine` contains no
newline, is not blank and yields a part whose `Event` is `a`; yet for the stream
made of this one newline-terminated line the parser emits nothing, not the one
part extracted from the line. -/
theorem C4_counterexample :
    10 ∉ longLine ∧ longLine ≠ [] ∧
      (∀ ff : GoString → GoString, (extractFields ff longLine).Event = ascii "a") ∧
      (∀ ff : GoString → GoString,
        frameParser ff (bufio.scanLines ([longLine].flatMap (fun l => l ++ [10]))) = []) ∧
      (∀ ff : GoString → GoString,
        frameParser ff (bufio.scanLines ([longLine].flatMap (fun l => l ++ [10]))) ≠
          [longLine].map (extractFields ff)) := by
  have h10 : 10 ∉ longLine := by
    intro h
    rcases List.mem_append.mp h with h | h
    · exact absurd h (by decide)
    · exact absurd (List.eq_of_mem_replicate h) (by decide)
  have hs : bufio.scanLines ([longLine].flatMap (fun l => l ++ [10])) = [] := by
    have hlen : bufio.MaxScanTokenSize ≤ ([] ++ longLine).length := by
      rw [List.nil_append, longLine, List.length_append, List.length_replicate]
      exact Nat.le_add_left _ _
    simp only [bufio.scanLines, List.flatMap_cons, List.flatMap_nil, List.append_nil,
      List.append_assoc, List.singleton_append]
    rw [scanTokens_line _ _ _ _ h10, if_pos hlen]
  refine ⟨h10, ?_, fun ff => rfl, fun ff => ?_, fun ff => ?_⟩
  · intro h
    have := congrArg List.length h
    rw [longLine, List.length_append, List.length_replicate] at this
    simp at this
  · rw [hs]
    rfl
  · rw [hs]
    simp [frameParser, frameLoop]

/-- C4, amended. For every number of lines and every byte stream of
newline-terminated lines, each shorter than 65536 bytes (the token limit of the
scanner), each non-blank once the scanner has dropped a final carriage return,
and each yielding a part with a non-empty field, the parser emits exactly one
part per line, the i-th part being the one extracted from the i-th line as the
scanner delivers it. -/
theorem C4_one_part_per_line (ff : GoString → GoString) (lines : List GoString)
    (h : ∀ l ∈ lines, 10 ∉ l ∧ l.length < bufio.MaxScanTokenSize ∧ bufio.dropCR l ≠ [] ∧
      ((extractFields ff (bufio.dropCR l)).Event ≠ [] ∨
        (extractFields ff (bufio.dropCR l)).Data ≠ [] ∨
        (extractFields ff (bufio.dropCR l)).MetaData ≠ [])) :
    frameParser ff (bufio.scanLines (lines.flatMap (fun l => l ++ [10]))) =
        lines.map (fun l => extractFields ff (bufio.dropCR l)) ∧
      (frameParser ff (bufio.scanLines (lines.flatMap (fun l => l ++ [10])))).length =
        lines.length := by
  have e : frameParser ff (bufio.scanLines (lines.flatMap (fun l => l ++ [10]))) =
      lines.map (fun l => extractFields ff (bufio.dropCR l)) := by
    rw [scanLines_lines lines (fun l hl => ⟨(h l hl).1, (h l hl).2.1⟩),
      frameParser_all_emit ff _ (by
        intro t ht
        obtain ⟨l, hl, rfl⟩ := List.mem_map.mp ht
        exact (h l hl).2.2),
      List.map_map]
    rfl
  exact ⟨e, by rw [e, List.length_map]⟩

/-- C4 at the two lines `lineA`, `lineB`. -/
theorem C4_one_part_per_line_witness :
    frameParser id (bufio.scanLines ([lineA, lineB].flatMap (fun l => l ++ [10]))) =
        [lineA, lineB].map (fun l => extractFields id (bufio.dropCR l)) ∧
      (frameParser id (bufio.scanLines ([lineA, lineB].flatMap (fun l => l ++ [10])))).length =
        [lineA, lineB].length :=
  C4_one_part_per_line id [lineA, lineB] (by decide)

/-- C5. Every part the loop sends, from the blank-line branch or from the branch
of a non-blank line and whatever is pending, has a non-empty `Event`, `Data` or
`MetaData`; a non-blank line whose three extracted fields are all empty sends
nothing, wherever it stands; `{}` is such a line; and so every part the
goroutine sends for any bytes of the raw body has a non-empty field. -/
theorem C5_no_empty_part (ff : GoString → GoString) :
    (∀ (lines : List GoString) (e d m : GoString) (p : StreamPart),
        p ∈ frameLoop ff lines e d m → p.Event ≠ [] ∨ p.Data ≠ [] ∨ p.MetaData ≠ []) ∧
      (∀ (a b : List GoString) (line : GoString), line ≠ [] →
        extractFields ff line = ⟨[], [], []⟩ →
        frameParser ff (a ++ line :: b) = frameParser ff (a ++ b)) ∧
      ascii "\x7b\x7d" ≠ [] ∧ extractFields ff (ascii "\x7b\x7d") = ⟨[], [], []⟩ ∧
      frameParser ff [ascii "\x7b\x7d"] = [] ∧
      (∀ (data : GoString) (p : StreamPart),
        p ∈ sentParts ff data → p.Event ≠ [] ∨ p.Data ≠ [] ∨ p.MetaData ≠ []) := by
  refine ⟨fun lines e d m p hp => frameLoop_nonEmpty ff lines e d m p hp, ?_, by decide, rfl, rfl,
    fun data p hp => frameLoop_nonEmpty ff _ _ _ _ p hp⟩
  intro a b line hne hex
  have h1 : lineParts ff line = [] := by
    simp [lineParts, frameLoop, hne, hex]
  simp only [frameParser, frameLoop_flatMap, List.flatMap_append, List.flatMap_cons, h1,
    List.nil_append]

/-- C5 at the lines `lineA`, `{}`, `lineB`: the line `{}` sends nothing. -/
theorem C5_no_empty_part_witness :
    frameParser id ([lineA] ++ ascii "\x7b\x7d" :: [lineB]) = frameParser id ([lineA] ++ [lineB]) :=
  (C5_no_empty_part id).2.1 [lineA] [lineB] (ascii "\x7b\x7d") (by decide) rfl

/-- On the lines the scanner delivers, the loop is line-per-event: what it emits
is the concatenation, in order, of what each line emits on its own, which is at
most one part and nothing for a blank line. -/
theorem frameParser_line_per_event (ff : GoString → GoString) :
    (∀ lines : List GoString,
        frameParser ff lines = lines.flatMap (fun l => frameParser ff [l])) ∧
      (∀ l : GoString, (frameParser ff [l]).length ≤ 1) ∧
      frameParser ff [[]] = [] ∧
      (∀ a b : List GoString, frameParser ff (a ++ b) = frameParser ff a ++ frameParser ff b) ∧
      (∀ a b : List GoString, frameParser ff (a ++ [] :: b) = frameParser ff (a ++ b)) ∧
      (∀ lines : List GoString,
        frameParser ff (lines.filter (fun l => decide (l ≠ []))) = frameParser ff lines) := by
  have hblank : lineParts ff [] = [] := by simp [lineParts, frameLoop]
  refine ⟨fun lines => frameLoop_flatMap ff lines [], ?_, hblank, ?_, ?_, ?_⟩
  · intro l
    unfold frameParser frameLoop
    dsimp only
    split_ifs <;> simp [frameLoop]
  · intro a b
    simp only [frameParser, frameLoop_flatMap, List.flatMap_append]
  · intro a b
    simp only [frameParser, frameLoop_flatMap, List.flatMap_append, List.flatMap_cons, hblank,
      List.nil_append]
  · intro lines
    simp only [frameParser, frameLoop_flatMap]
    induction lines with
    | nil => rfl
    | cons l rest ih =>
      by_cases hl : l = []
      · subst hl
        simp only [List.filter_cons, ne_eq, not_true_eq_false, decide_False, Bool.false_eq_true,
          if_false, List.flatMap_cons, hblank, List.nil_append, ih]
      · simp only [List.filter_cons, ne_eq, hl, not_false_eq_true, decide_True, if_true,
          List.flatMap_cons, ih]

/-- The scanner stops at a line of 65536 bytes or more: after `longLine` it
delivers nothing, whatever follows. -/
theorem scanLines_longLine (rest : GoString) : bufio.scanLines (longLine ++ 10 :: rest) = [] := by
  have h10 : 10 ∉ longLine := by
    intro h
    rcases List.mem_append.mp h with h | h
    · exact absurd h (by decide)
    · exact absurd (List.eq_of_mem_replicate h) (by decide)
  have hlen : bufio.MaxScanTokenSize ≤ ([] ++ longLine).length := by
    rw [List.nil_append, longLine, List.length_append, List.length_replicate]
    exact Nat.le_add_left _ _
  rw [bufio.scanLines, scanTokens_line _ _ _ _ h10, if_pos hlen]

/-- For newline-terminated lines below the token limit, the goroutine sends for
each line what the loop emits for that line as the scanner delivers it. -/
theorem sentParts_byteStream (ff : GoString → GoString) (lines : List GoString)
    (h : ∀ l ∈ lines, 10 ∉ l ∧ l.length < bufio.MaxScanTokenSize) :
    sentParts ff (byteStream lines) = lines.flatMap (fun l => lineParts ff (bufio.dropCR l)) := by
  unfold sentParts byteStream frameParser
  rw [scanLines_lines lines h, frameLoop_flatMap, List.flatMap_map]

/-- A single newline-terminated line below the token limit. -/
theorem sentParts_single (ff : GoString → GoString) (l : GoString)
    (h : 10 ∉ l ∧ l.length < bufio.MaxScanTokenSize) :
    sentParts ff (byteStream [l]) = lineParts ff (bufio.dropCR l) := by
  rw [sentParts_byteStream ff [l] (by simpa using h)]
  simp

/-- C8, as stated, fails on the byte stream. For the lines `longLine`, `lineB`
the goroutine sends nothing, while `lineB` on its own sends its part: the output
for `[longLine] ++ [lineB]` is not the output for `[longLine]` followed by the
output for `[lineB]`. -/
theorem C8_counterexample :
    (∀ ff : GoString → GoString, sentParts ff (byteStream ([longLine] ++ [lineB])) = []) ∧
      (∀ ff : GoString → GoString, sentParts ff (byteStream [longLine]) = []) ∧
      (∀ ff : GoString → GoString,
        sentParts ff (byteStream [lineB]) = [⟨ascii "b", [34, 50, 34], []⟩]) ∧
      (∀ ff : GoString → GoString,
        sentParts ff (byteStream ([longLine] ++ [lineB])) ≠
          sentParts ff (byteStream [longLine]) ++ sentParts ff (byteStream [lineB])) := by
  have h1 : ∀ ff : GoString → GoString,
      sentParts ff (byteStream ([longLine] ++ [lineB])) = [] := by
    intro ff
    have e : byteStream ([longLine] ++ [lineB]) = longLine ++ 10 :: (lineB ++ [10]) := by
      simp [byteStream]
    rw [sentParts, e, scanLines_longLine]
    rfl
  have h2 : ∀ ff : GoString → GoString, sentParts ff (byteStream [longLine]) = [] := by
    intro ff
    have e : byteStream [longLine] = longLine ++ 10 :: [] := by
      simp [byteStream]
    rw [sentParts, e, scanLines_longLine]
    rfl
  have h3 : ∀ ff : GoString → GoString,
      sentParts ff (byteStream [lineB]) = [⟨ascii "b", [34, 50, 34], []⟩] := fun _ => rfl
  refine ⟨h1, h2, h3, fun ff => ?_⟩
  rw [h1, h2, h3]
  simp

/-- C8, amended. For every byte stream of newline-terminated lines, each shorter
than 65536 bytes (the token limit of the scanner), the parser is line-per-event:
what it emits is the concatenation, in order, of what each line emits on its
own, which is at most one part and nothing for a blank line; so the output for
the lines `a ++ b` is the output for `a` followed by the output for `b`, and
inserting or removing blank lines never changes what is emitted. On the lines
the scanner delivers the same holds with no bound. -/
theorem C8_line_per_event (ff : GoString → GoString) (a b : List GoString)
    (ha : ∀ l ∈ a, 10 ∉ l ∧ l.length < bufio.MaxScanTokenSize)
    (hb : ∀ l ∈ b, 10 ∉ l ∧ l.length < bufio.MaxScanTokenSize) :
    sentParts ff (byteStream a) = a.flatMap (fun l => sentParts ff (byteStream [l])) ∧
      (∀ l ∈ a, (sentParts ff (byteStream [l])).length ≤ 1) ∧
      sentParts ff (byteStream [[]]) = [] ∧
      sentParts ff (byteStream (a ++ b)) =
        sentParts ff (byteStream a) ++ sentParts ff (byteStream b) ∧
      sentParts ff (byteStream (a ++ [] :: b)) = sentParts ff (byteStream (a ++ b)) ∧
      sentParts ff (byteStream (a.filter (fun l => decide (l ≠ [])))) =
        sentParts ff (byteStream a) ∧
      (∀ lines : List GoString,
        frameParser ff lines = lines.flatMap (fun l => frameParser ff [l])) ∧
      (∀ x y : List GoString, frameParser ff (x ++ y) = frameParser ff x ++ frameParser ff y) ∧
      (∀ x y : List GoString, frameParser ff (x ++ [] :: y) = frameParser ff (x ++ y)) := by
  have hblank : lineParts ff (bufio.dropCR []) = [] := by simp [lineParts, frameLoop, bufio.dropCR]
  have hab : ∀ l ∈ a ++ b, 10 ∉ l ∧ l.length < bufio.MaxScanTokenSize := by
    intro l hl
    rcases List.mem_append.mp hl with h | h
    · exact ha l h
    · exact hb l h
  have hnil : (10 : Nat) ∉ ([] : GoString) ∧ ([] : GoString).length < bufio.MaxScanTokenSize := by
    decide
  have habl : ∀ l ∈ a ++ [] :: b, 10 ∉ l ∧ l.length < bufio.MaxScanTokenSize := by
    intro l hl
    rcases List.mem_append.mp hl with h | h
    · exact ha l h
    · rcases List.mem_cons.mp h with h | h
      · rw [h]
        exact hnil
      · exact hb l h
  have hf : ∀ l ∈ a.filter (fun l => decide (l ≠ [])),
      10 ∉ l ∧ l.length < bufio.MaxScanTokenSize :=
    fun l hl => ha l (List.mem_filter.mp hl).1
  have hline := frameParser_line_per_event ff
  refine ⟨?_, ?_, ?_, ?_, ?_, ?_, hline.1, hline.2.2.2.1, hline.2.2.2.2.1⟩
  · rw [sentParts_byteStream ff a ha]
    clear hab habl hf hb
    induction a with
    | nil => rfl
    | cons l rest ih =>
      rw [List.flatMap_cons, List.flatMap_cons, sentParts_single ff l (ha l (by simp)),
        ih (fun x hx => ha x (by simp [hx]))]
  · intro l hl
    rw [sentParts_single ff l (ha l hl)]
    exact hline.2.1 _
  · rw [sentParts_single ff [] hnil]
    exact hblank
  · rw [sentParts_byteStream ff _ hab, sentParts_byteStream ff a ha, sentParts_byteStream ff b hb,
      List.flatMap_append]
  · rw [sentParts_byteStream ff _ habl, sentParts_byteStream ff _ hab, List.flatMap_append,
      List.flatMap_cons, hblank, List.nil_append, List.flatMap_append]
  · rw [sentParts_byteStream ff _ hf, sentParts_byteStream ff a ha]
    clear hab habl hf hb ha
    induction a with
    | nil => rfl
    | cons l rest ih =>
      by_cases hl : l = []
      · subst hl
        simp only [List.filter_cons, ne_eq, not_true_eq_false, decide_False, Bool.false_eq_true,
          if_false, List.flatMap_cons, hblank, List.nil_append, ih]
      · simp only [List.filter_cons, ne_eq, hl, not_false_eq_true, decide_True, if_true,
          List.flatMap_cons, ih]

/-- C8 at the lines `lineA`, blank, `lineB` followed by `lineB`. -/
theorem C8_line_per_event_witness :
    sentParts id (byteStream ([lineA, [], lineB] ++ [lineB])) =
      sentParts id (byteStream [lineA, [], lineB]) ++ sentParts id (byteStream [lineB]) :=
  (C8_line_per_event id [lineA, [], lineB] [lineB] (by decide) (by decide)).2.2.2.1

/-! ## The request that is executed -/

theorem update_append_length (heap : Heap) (x : Request) (f : Request → Request) :
    update (heap ++ [x]) heap.length f = heap ++ [f x] := by
  induction heap with
  | nil => rfl
  | cons y rest ih => simp [update, ih]

theorem headers_loop (hs : List (GoString × GoString)) (heap : Heap) :
    hs.foldl (fun heap kv => SetHeader (R heap).1 (R heap).2 kv.1 kv.2) heap =
      heap ++ hs.map (fun kv =>
        { Header := [kv], Body := none, QueryParam := [], DoNotParseResponse := false }) := by
  induction hs generalizing heap with
  | nil => simp
  | cons kv rest ih =>
    simp only [List.foldl_cons, List.map_cons]
    rw [ih]
    simp only [SetHeader, R, update_append_length, headerSet, List.append_assoc,
      List.singleton_append]

/-- The heap at the end of the set-up: `req` is the first cell, with the two
fixed headers and the content type of a body; each later cell is a request made
for one entry of `headers` and holds that entry alone. -/
theorem buildRequest_eq (jsonData : Option GoString)
    (params : Option (List (GoString × List GoString)))
    (headers : Option (List (GoString × GoString))) :
    buildRequest jsonData params headers =
      ({ Header := [(ascii "Accept", ascii "text/event-stream"), (ascii "Cache-Control", ascii "no-store")]
            ++ (match jsonData with
                | none => []
                | some _ => [(ascii "Content-Type", ascii "application/json")])
         Body := jsonData
         QueryParam := (match params with
                | none => []
                | some ps => ps.flatMap (fun kv => kv.2.map (fun v => (kv.1, v))))
         DoNotParseResponse := true } ::
        (match headers with
          | none => []
          | some hs => hs.map (fun kv =>
              { Header := [kv], Body := none, QueryParam := [], DoNotParseResponse := false })),
        0) := by
  cases headers <;> cases jsonData <;> cases params <;>
    simp only [buildRequest, headers_loop] <;> rfl

theorem executedRequest_eq (jsonData : Option GoString)
    (params : Option (List (GoString × List GoString)))
    (headers : Option (List (GoString × GoString))) :
    executedRequest jsonData params headers =
      { Header := [(ascii "Accept", ascii "text/event-stream"), (ascii "Cache-Control", ascii "no-store")]
            ++ (match jsonData with
                | none => []
                | some _ => [(ascii "Content-Type", ascii "application/json")])
        Body := jsonData
        QueryParam := (match params with
                | none => []
                | some ps => ps.flatMap (fun kv => kv.2.map (fun v => (kv.1, v))))
        DoNotParseResponse := true } := by
  unfold executedRequest
  rw [buildRequest_eq]
  rfl

theorem stringsContains_iff (s sub : GoString) :
    stringsContains s sub = true ↔ List.IsInfix sub s := by
  unfold stringsContains
  rw [List.any_eq_true, List.infix_iff_prefix_suffix]
  constructor
  · rintro ⟨t, ht, hp⟩
    exact ⟨t, List.isPrefixOf_iff_prefix.mp hp, (List.mem_tails _ _).mp ht⟩
  · rintro ⟨t, hp, ht⟩
    exact ⟨t, (List.mem_tails _ _).mpr ht, List.isPrefixOf_iff_prefix.mpr hp⟩

/-! ## The five ways `Stream` returns -/

/-- The `default` case of the `switch`: no request is executed. -/
theorem Stream_unsupported (toUpper : GoString → GoString)
    (transport : GoString → GoString → Request → Except GoError Response)
    (path method : GoString) (jsonData : Option GoString)
    (params : Option (List (GoString × List GoString)))
    (headers : Option (List (GoString × GoString))) (onResponse : Bool)
    (hm : toUpper method ∉ verbs) :
    Stream toUpper transport path method jsonData params headers onResponse =
      ⟨none, none, some (GoError.errorf (ascii "unsupported HTTP method: " ++ method)), []⟩ := by
  simp only [Stream, hm, if_false]

/-- The transport call fails. -/
theorem Stream_transport_error (toUpper : GoString → GoString)
    (transport : GoString → GoString → Request → Except GoError Response)
    (path method : GoString) (jsonData : Option GoString)
    (params : Option (List (GoString × List GoString)))
    (headers : Option (List (GoString × GoString))) (onResponse : Bool) (err : GoError)
    (hm : toUpper method ∈ verbs)
    (ht : transport (toUpper method) path (executedRequest jsonData params headers) =
      Except.error err) :
    Stream toUpper transport path method jsonData params headers onResponse =
      ⟨none, none, some err,
        Effect.execute (toUpper method) path (executedRequest jsonData params headers) ::
          (if onResponse then [Effect.onResponse] else [])⟩ := by
  simp only [Stream, hm, if_true, ht]

/-- The status code is 400 or more. -/
theorem Stream_status_error (toUpper : GoString → GoString)
    (transport : GoString → GoString → Request → Except GoError Response)
    (path method : GoString) (jsonData : Option GoString)
    (params : Option (List (GoString × List GoString)))
    (headers : Option (List (GoString × GoString))) (onResponse : Bool) (resp : Response)
    (hm : toUpper method ∈ verbs)
    (ht : transport (toUpper method) path (executedRequest jsonData params headers) = Except.ok resp)
    (hs : 400 ≤ resp.StatusCode) :
    Stream toUpper transport path method jsonData params headers onResponse =
      ⟨none, none,
        some (GoError.errorf
          (ascii "HTTP error: " ++ formatInt resp.StatusCode ++ ascii " - " ++ resp.Body.data)),
        (Effect.execute (toUpper method) path (executedRequest jsonData params headers) ::
          (if onResponse then [Effect.onResponse] else [])) ++
          [Effect.readAll, Effect.closeRawBody]⟩ := by
  simp only [Stream, hm, if_true, ht, hs]

/-- The status code is below 400 and the content type is refused. -/
theorem Stream_content_type_error (toUpper : GoString → GoString)
    (transport : GoString → GoString → Request → Except GoError Response)
    (path method : GoString) (jsonData : Option GoString)
    (params : Option (List (GoString × List GoString)))
    (headers : Option (List (GoString × GoString))) (onResponse : Bool) (resp : Response)
    (hm : toUpper method ∈ verbs)
    (ht : transport (toUpper method) path (executedRequest jsonData params headers) = Except.ok resp)
    (hs : ¬ 400 ≤ resp.StatusCode)
    (hc : resp.ContentType = [] ∨ ¬ containsTextEventStream resp.ContentType = true) :
    Stream toUpper transport path method jsonData params headers onResponse =
      ⟨none, none,
        some (GoError.errorf
          (ascii "expected Content-Type to contain 'text/event-stream', got " ++ resp.ContentType)),
        (Effect.execute (toUpper method) path (executedRequest jsonData params headers) ::
          (if onResponse then [Effect.onResponse] else [])) ++
          [Effect.closeRawBody]⟩ := by
  simp only [Stream, hm, if_true, ht, hs, if_false, hc]

/-- The status code is below 400 and the content type is accepted. -/
theorem Stream_started (toUpper : GoString → GoString)
    (transport : GoString → GoString → Request → Except GoError Response)
    (path method : GoString) (jsonData : Option GoString)
    (params : Option (List (GoString × List GoString)))
    (headers : Option (List (GoString × GoString))) (onResponse : Bool) (resp : Response)
    (hm : toUpper method ∈ verbs)
    (ht : transport (toUpper method) path (executedRequest jsonData params headers) = Except.ok resp)
    (hs : ¬ 400 ≤ resp.StatusCode)
    (hc : ¬ (resp.ContentType = [] ∨ ¬ containsTextEventStream resp.ContentType = true)) :
    Stream toUpper transport path method jsonData params headers onResponse =
      ⟨some 0, some 1, none,
        (Effect.execute (toUpper method) path (executedRequest jsonData params headers) ::
          (if onResponse then [Effect.onResponse] else [])) ++
          [Effect.makeChan 0, Effect.makeChan 1, Effect.go resp.Body]⟩ := by
  simp only [Stream, hm, if_true, ht, hs, if_false, hc]

/-! ## The goroutine's trace -/

theorem count_map_sendPart (a : Action) (ha : ∀ p, a ≠ Action.sendPart p) (ps : List StreamPart) :
    (ps.map Action.sendPart).count a = 0 := by
  rw [List.count_eq_zero]
  intro h
  obtain ⟨p, -, hp⟩ := List.mem_map.mp h
  exact ha p hp.symm

theorem not_mem_map_sendPart (a : Action) (ha : ∀ p, a ≠ Action.sendPart p) (ps : List StreamPart) :
    a ∉ ps.map Action.sendPart := by
  intro h
  obtain ⟨p, -, hp⟩ := List.mem_map.mp h
  exact ha p hp.symm

theorem foldl_errChStep_sendPart (ps : List StreamPart) (ch : Chan GoError) :
    (ps.map Action.sendPart).foldl errChStep ch = ch := by
  induction ps with
  | nil => rfl
  | cons p rest ih => simpa [errChStep] using ih

/-! ## Claims on `Stream` -/

/-- C2. For every response with a status code of 400 or more, whatever its
content type, `Stream` returns the error `HTTP error: <code> - <body>`, whose
message contains the decimal status code and all the bytes the raw body
delivers; both channels are nil, the raw body is closed once, and no goroutine
is started. -/
theorem C2_status_error (toUpper : GoString → GoString)
    (transport : GoString → GoString → Request → Except GoError Response)
    (path method : GoString) (jsonData : Option GoString)
    (params : Option (List (GoString × List GoString)))
    (headers : Option (List (GoString × GoString))) (onResponse : Bool) (resp : Response)
    (hm : toUpper method ∈ verbs)
    (ht : transport (toUpper method) path (executedRequest jsonData params headers) = Except.ok resp)
    (hs : 400 ≤ resp.StatusCode) :
    (Stream toUpper transport path method jsonData params headers onResponse).err =
        some (GoError.errorf
          (ascii "HTTP error: " ++ formatInt resp.StatusCode ++ ascii " - " ++ resp.Body.data)) ∧
      List.IsInfix (formatInt resp.StatusCode)
        (ascii "HTTP error: " ++ formatInt resp.StatusCode ++ ascii " - " ++ resp.Body.data) ∧
      List.IsInfix resp.Body.data
        (ascii "HTTP error: " ++ formatInt resp.StatusCode ++ ascii " - " ++ resp.Body.data) ∧
      (Stream toUpper transport path method jsonData params headers onResponse).streamPartCh = none ∧
      (Stream toUpper transport path method jsonData params headers onResponse).errCh = none ∧
      (Stream toUpper transport path method jsonData params headers onResponse).effects.count
        Effect.closeRawBody = 1 ∧
      ∀ b, Effect.go b ∉
        (Stream toUpper transport path method jsonData params headers onResponse).effects := by
  rw [Stream_status_error toUpper transport path method jsonData params headers onResponse resp
    hm ht hs]
  refine ⟨rfl, ⟨ascii "HTTP error: ", ascii " - " ++ resp.Body.data, by simp⟩,
    ⟨ascii "HTTP error: " ++ formatInt resp.StatusCode ++ ascii " - ", [], by simp⟩, rfl, rfl, ?_, ?_⟩
  · cases onResponse <;> simp [List.count_cons]
  · intro b
    cases onResponse <;> simp

/-- C2 at a response `404` with body `not found`: the error reads
`HTTP error: 404 - not found`. -/
theorem C2_status_error_witness :
    (Stream id (fun _ _ _ => Except.ok ⟨404, ascii "text/event-stream", ⟨ascii "not found", false⟩⟩)
        (ascii "/runs/stream") (ascii "POST") none none none false).err =
      some (GoError.errorf (ascii "HTTP error: 404 - not found")) :=
  (C2_status_error id (fun _ _ _ => Except.ok ⟨404, ascii "text/event-stream", ⟨ascii "not found", false⟩⟩)
    (ascii "/runs/stream") (ascii "POST") none none none false
    ⟨404, ascii "text/event-stream", ⟨ascii "not found", false⟩⟩ (by decide) rfl (by decide)).1

/-- C3. For every response with a status code below 400: when the content type
is empty or does not contain `text/event-stream`, `Stream` returns an error,
both channels are nil, the raw body is closed exactly once and no goroutine is
started; when the content type contains `text/event-stream`, no error is
returned. -/
theorem C3_content_type (toUpper : GoString → GoString)
    (transport : GoString → GoString → Request → Except GoError Response)
    (path method : GoString) (jsonData : Option GoString)
    (params : Option (List (GoString × List GoString)))
    (headers : Option (List (GoString × GoString))) (onResponse : Bool) (resp : Response)
    (hm : toUpper method ∈ verbs)
    (ht : transport (toUpper method) path (executedRequest jsonData params headers) = Except.ok resp)
    (hs : resp.StatusCode < 400) :
    ((resp.ContentType = [] ∨ ¬ List.IsInfix (ascii "text/event-stream") resp.ContentType) →
        (Stream toUpper transport path method jsonData params headers onResponse).err ≠ none ∧
        (Stream toUpper transport path method jsonData params headers onResponse).streamPartCh = none ∧
        (Stream toUpper transport path method jsonData params headers onResponse).errCh = none ∧
        (Stream toUpper transport path method jsonData params headers onResponse).effects.count
          Effect.closeRawBody = 1 ∧
        ∀ b, Effect.go b ∉
          (Stream toUpper transport path method jsonData params headers onResponse).effects) ∧
      (List.IsInfix (ascii "text/event-stream") resp.ContentType →
        (Stream toUpper transport path method jsonData params headers onResponse).err = none) := by
  have hs2 : ¬ 400 ≤ resp.StatusCode := not_le.mpr hs
  constructor
  · intro hc
    have hc2 : resp.ContentType = [] ∨ ¬ containsTextEventStream resp.ContentType = true := by
      rcases hc with h | h
      · exact Or.inl h
      · exact Or.inr (fun hh => h ((stringsContains_iff _ _).mp hh))
    rw [Stream_content_type_error toUpper transport path method jsonData params headers onResponse
      resp hm ht hs2 hc2]
    refine ⟨by simp, rfl, rfl, ?_, ?_⟩
    · cases onResponse <;> simp [List.count_cons]
    · intro b
      cases onResponse <;> simp
  · intro hc
    have hc1 : containsTextEventStream resp.ContentType = true := (stringsContains_iff _ _).mpr hc
    have hne : resp.ContentType ≠ [] := by
      intro h
      rw [h] at hc1
      exact absurd hc1 (by decide)
    have hc2 : ¬ (resp.ContentType = [] ∨ ¬ containsTextEventStream resp.ContentType = true) := by
      simp [hne, hc1]
    rw [Stream_started toUpper transport path method jsonData params headers onResponse
      resp hm ht hs2 hc2]

/-- C3 at two responses with status 200: `application/json` is refused,
`text/event-stream; charset=utf-8` is accepted. -/
theorem C3_content_type_witness :
    (Stream id (fun _ _ _ => Except.ok ⟨200, ascii "application/json", ⟨[], false⟩⟩)
        (ascii "/runs/stream") (ascii "POST") none none none false).err ≠ none ∧
      (Stream id
        (fun _ _ _ => Except.ok ⟨200, ascii "text/event-stream; charset=utf-8", ⟨[], false⟩⟩)
        (ascii "/runs/stream") (ascii "POST") none none none false).err = none :=
  ⟨((C3_content_type id (fun _ _ _ => Except.ok ⟨200, ascii "application/json", ⟨[], false⟩⟩)
      (ascii "/runs/stream") (ascii "POST") none none none false
      ⟨200, ascii "application/json", ⟨[], false⟩⟩ (by decide) rfl (by decide)).1
      (Or.inr (fun h => absurd ((stringsContains_iff _ _).mpr h) (by decide)))).1,
    (C3_content_type id
      (fun _ _ _ => Except.ok ⟨200, ascii "text/event-stream; charset=utf-8", ⟨[], false⟩⟩)
      (ascii "/runs/stream") (ascii "POST") none none none false
      ⟨200, ascii "text/event-stream; charset=utf-8", ⟨[], false⟩⟩ (by decide) rfl (by decide)).2
      ((stringsContains_iff _ _).mp (by decide))⟩

/-- C6. For every call of `Stream`, whatever the method string, the result of
the transport call, the status code and the content type, exactly one of two
things holds: the error is non-nil, both channels are nil and no goroutine is
started; or the error is nil, both channels are non-nil and the goroutine is
started. -/
theorem C6_error_or_stream (toUpper : GoString → GoString)
    (transport : GoString → GoString → Request → Except GoError Response)
    (path method : GoString) (jsonData : Option GoString)
    (params : Option (List (GoString × List GoString)))
    (headers : Option (List (GoString × GoString))) (onResponse : Bool) :
    Xor'
      ((Stream toUpper transport path method jsonData params headers onResponse).err ≠ none ∧
        (Stream toUpper transport path method jsonData params headers onResponse).streamPartCh = none ∧
        (Stream toUpper transport path method jsonData params headers onResponse).errCh = none ∧
        ∀ b, Effect.go b ∉
          (Stream toUpper transport path method jsonData params headers onResponse).effects)
      ((Stream toUpper transport path method jsonData params headers onResponse).err = none ∧
        (Stream toUpper transport path method jsonData params headers onResponse).streamPartCh ≠ none ∧
        (Stream toUpper transport path method jsonData params headers onResponse).errCh ≠ none ∧
        ∃ b, Effect.go b ∈
          (Stream toUpper transport path method jsonData params headers onResponse).effects) := by
  by_cases hm : toUpper method ∈ verbs
  · cases ht : transport (toUpper method) path (executedRequest jsonData params headers) with
    | error err =>
      rw [Stream_transport_error toUpper transport path method jsonData params headers onResponse
        err hm ht]
      refine Or.inl ⟨⟨by simp, rfl, rfl, ?_⟩, by simp⟩
      intro b
      cases onResponse <;> simp
    | ok resp =>
      by_cases hs : 400 ≤ resp.StatusCode
      · rw [Stream_status_error toUpper transport path method jsonData params headers onResponse
          resp hm ht hs]
        refine Or.inl ⟨⟨by simp, rfl, rfl, ?_⟩, by simp⟩
        intro b
        cases onResponse <;> simp
      · by_cases hc : resp.ContentType = [] ∨ ¬ containsTextEventStream resp.ContentType = true
        · rw [Stream_content_type_error toUpper transport path method jsonData params headers
            onResponse resp hm ht hs hc]
          refine Or.inl ⟨⟨by simp, rfl, rfl, ?_⟩, by simp⟩
          intro b
          cases onResponse <;> simp
        · rw [Stream_started toUpper transport path method jsonData params headers
            onResponse resp hm ht hs hc]
          exact Or.inr ⟨⟨rfl, by simp, by simp, resp.Body, by simp⟩, by simp⟩
  · rw [Stream_unsupported toUpper transport path method jsonData params headers onResponse hm]
    exact Or.inl ⟨⟨by simp, rfl, rfl, by simp⟩, by simp⟩

/-- C7, as stated, fails. On the exit path of an empty body the goroutine closes
the raw body neither before the event channel nor before the error channel. -/
theorem C7_counterexample :
    ¬ ∃ ff : GoString → GoString,
      List.indexOf Action.closeRawBody (goroutine ff ⟨[], false⟩) <
          List.indexOf Action.closeStreamPartCh (goroutine ff ⟨[], false⟩) ∨
        List.indexOf Action.closeRawBody (goroutine ff ⟨[], false⟩) <
          List.indexOf Action.closeErrCh (goroutine ff ⟨[], false⟩) := by
  rintro ⟨ff, h⟩
  have e : goroutine ff ⟨[], false⟩ =
      [Action.closeErrCh, Action.closeStreamPartCh, Action.closeRawBody] := rfl
  rw [e] at h
  revert h
  decide

/-- C7, amended. On every exit path of the goroutine the trace is the sends
followed by the close of the error channel, the close of the event channel and
the close of the raw body, in this order: each is closed exactly once, and the
raw body is closed after both channels. -/
theorem C7_cleanup_order (ff : GoString → GoString) (rawBody : RawBody) :
    goroutine ff rawBody =
        (frameParser ff (bufio.scanLines rawBody.data)).map Action.sendPart ++
          [Action.closeErrCh, Action.closeStreamPartCh, Action.closeRawBody] ∧
      (goroutine ff rawBody).count Action.closeRawBody = 1 ∧
      (goroutine ff rawBody).count Action.closeStreamPartCh = 1 ∧
      (goroutine ff rawBody).count Action.closeErrCh = 1 ∧
      List.indexOf Action.closeErrCh (goroutine ff rawBody) <
        List.indexOf Action.closeStreamPartCh (goroutine ff rawBody) ∧
      List.indexOf Action.closeStreamPartCh (goroutine ff rawBody) <
        List.indexOf Action.closeRawBody (goroutine ff rawBody) := by
  have e : goroutine ff rawBody =
      (frameParser ff (bufio.scanLines rawBody.data)).map Action.sendPart ++
        [Action.closeErrCh, Action.closeStreamPartCh, Action.closeRawBody] := rfl
  rw [e]
  refine ⟨rfl, ?_, ?_, ?_, ?_, ?_⟩
  · rw [List.count_append, count_map_sendPart _ (by intro p; simp)]
    decide
  · rw [List.count_append, count_map_sendPart _ (by intro p; simp)]
    decide
  · rw [List.count_append, count_map_sendPart _ (by intro p; simp)]
    decide
  · rw [List.indexOf_append_of_not_mem (not_mem_map_sendPart _ (by intro p; simp) _),
      List.indexOf_append_of_not_mem (not_mem_map_sendPart _ (by intro p; simp) _)]
    exact Nat.add_lt_add_left (by decide) _
  · rw [List.indexOf_append_of_not_mem (not_mem_map_sendPart _ (by intro p; simp) _),
      List.indexOf_append_of_not_mem (not_mem_map_sendPart _ (by intro p; simp) _)]
    exact Nat.add_lt_add_left (by decide) _

/-- C9. For every raw body, whether its reads end with end of input or with an
error, the goroutine sends nothing on the error channel: the channel ends up
closed with an empty queue, and a receive on it yields the nil error. -/
theorem C9_no_error_sent (ff : GoString → GoString) (rawBody : RawBody) :
    (∀ e, Action.sendErr e ∉ goroutine ff rawBody) ∧
      ((goroutine ff rawBody).foldl errChStep ⟨[], false⟩).queue = [] ∧
      ((goroutine ff rawBody).foldl errChStep ⟨[], false⟩).closed = true ∧
      recvErr ((goroutine ff rawBody).foldl errChStep ⟨[], false⟩) = none := by
  have e : goroutine ff rawBody =
      (frameParser ff (bufio.scanLines rawBody.data)).map Action.sendPart ++
        [Action.closeErrCh, Action.closeStreamPartCh, Action.closeRawBody] := rfl
  have f : (goroutine ff rawBody).foldl errChStep ⟨[], false⟩ = ⟨[], true⟩ := by
    rw [e, List.foldl_append, foldl_errChStep_sendPart]
    rfl
  refine ⟨?_, by rw [f], by rw [f], by rw [f]; rfl⟩
  intro err h
  rw [e] at h
  rcases List.mem_append.mp h with h | h
  · exact not_mem_map_sendPart _ (by intro p; simp) _ h
  · simp at h

/-- C10. The argument `headers` has no effect on the request that is executed:
for any two header maps, nil included, the executed request is the same; its
headers are `Accept: text/event-stream` and `Cache-Control: no-store`, plus
`Content-Type: application/json` exactly when the body is non-nil; the whole
outcome of `Stream` is the same; and every entry of `headers` is set on a request
of its own, allocated after `req`, which is never executed. -/
theorem C10_headers_ignored (jsonData : Option GoString)
    (params : Option (List (GoString × List GoString)))
    (h1 h2 : Option (List (GoString × GoString))) :
    executedRequest jsonData params h1 = executedRequest jsonData params h2 ∧
      (executedRequest jsonData params h1).Header =
        [(ascii "Accept", ascii "text/event-stream"), (ascii "Cache-Control", ascii "no-store")] ++
          (if jsonData.isSome then [(ascii "Content-Type", ascii "application/json")] else []) ∧
      (∀ (toUpper : GoString → GoString)
          (transport : GoString → GoString → Request → Except GoError Response)
          (path method : GoString) (onResponse : Bool),
        Stream toUpper transport path method jsonData params h1 onResponse =
          Stream toUpper transport path method jsonData params h2 onResponse) ∧
      (∀ hs : List (GoString × GoString),
        (buildRequest jsonData params (some hs)).2 = 0 ∧
          ((buildRequest jsonData params (some hs)).1.drop 1).map Request.Header =
            hs.map (fun kv => [kv])) := by
  have e : executedRequest jsonData params h1 = executedRequest jsonData params h2 := by
    rw [executedRequest_eq, executedRequest_eq]
  refine ⟨e, ?_, ?_, ?_⟩
  · rw [executedRequest_eq]
    cases jsonData <;> rfl
  · intro toUpper transport path method onResponse
    unfold Stream
    rw [e]
  · intro hs
    rw [buildRequest_eq]
    simp [Function.comp_def]

end http
